import Mathlib

/-!
Verification development for the tree-walking Lisp-like evaluator of this
repository (final "lesson 7" state: self-evaluating literals, variables,
define / set!, lambda, begin, if, cond desugaring, applications, and a
prototype-chain environment model).

The JavaScript source represents expressions as plain host values (numbers,
strings, arrays), environments as host objects chained through prototype
inheritance, and compound procedures as tagged arrays carrying a captured
environment.  The shallow embedding below mirrors that representation:

* `Expr` is the host-value universe used for expressions (numbers, strings,
  booleans, null, undefined, arrays);
* `Value` is the host-value universe produced by evaluation (additionally
  native functions, compound procedures and NaN);
* environments are frames in an explicit store, a frame being an ordered
  own-property table plus an optional parent (prototype) reference;
* host coercions that the source relies on (`isNaN`, `String(...)` /
  array `join`, the `in` operator, property lookup through the prototype
  chain, loose equality against a tag string) are modelled explicitly.

Numbers are modelled as `Int`: every numeral the interpreter's programs and
tests use is integral.  Non-integral host numerals are outside this fragment
and are noted where the coercion functions would meet them.
-/

/-- Host values in expression position: JS numbers, strings, booleans,
`null`, `undefined`, and arrays (the source manipulates expressions as plain
JS arrays / scalars, there is no dedicated AST class). -/
inductive Expr where
  | num (n : Int)
  | str (s : String)
  | bool (b : Bool)
  | null
  | undefined
  | list (elems : List Expr)
  deriving Repr

/-- Runtime values.  `builtin` is a native (JS) function identified by the
name it is registered under; `compound` is the `["function", parameters,
body]` tagged array produced by `makeFunction`, whose `environment` expando
property is the store reference `env`; `arr` is a plain host array value (an
expression array returned as-is by the self-evaluating branch); `nan` is the
host NaN number. -/
inductive Value where
  | num (n : Int)
  | nan
  | str (s : String)
  | bool (b : Bool)
  | null
  | undefined
  | builtin (name : String)
  | compound (params : Expr) (body : List Expr) (env : Nat)
  | arr (elems : List Value)
  deriving Repr

/-- Decidable equality for `Expr` (written by hand: the nested `List Expr`
occurrence defeats the automatic derivation on this toolchain). -/
def Expr.deq : (a b : Expr) → Decidable (a = b)
  | .num n, .num m =>
    match decEq n m with
    | isTrue h => isTrue (by rw [h])
    | isFalse h => isFalse (fun hh => by cases hh; exact h rfl)
  | .str s, .str t =>
    match decEq s t with
    | isTrue h => isTrue (by rw [h])
    | isFalse h => isFalse (fun hh => by cases hh; exact h rfl)
  | .bool x, .bool y =>
    match decEq x y with
    | isTrue h => isTrue (by rw [h])
    | isFalse h => isFalse (fun hh => by cases hh; exact h rfl)
  | .null, .null => isTrue rfl
  | .undefined, .undefined => isTrue rfl
  | .list es, .list fs =>
    match deqList es fs with
    | isTrue h => isTrue (by rw [h])
    | isFalse h => isFalse (fun hh => by cases hh; exact h rfl)
  | .num _, .str _ => isFalse (by intro h; exact Expr.noConfusion h)
  | .num _, .bool _ => isFalse (by intro h; exact Expr.noConfusion h)
  | .num _, .null => isFalse (by intro h; exact Expr.noConfusion h)
  | .num _, .undefined => isFalse (by intro h; exact Expr.noConfusion h)
  | .num _, .list _ => isFalse (by intro h; exact Expr.noConfusion h)
  | .str _, .num _ => isFalse (by intro h; exact Expr.noConfusion h)
  | .str _, .bool _ => isFalse (by intro h; exact Expr.noConfusion h)
  | .str _, .null => isFalse (by intro h; exact Expr.noConfusion h)
  | .str _, .undefined => isFalse (by intro h; exact Expr.noConfusion h)
  | .str _, .list _ => isFalse (by intro h; exact Expr.noConfusion h)
  | .bool _, .num _ => isFalse (by intro h; exact Expr.noConfusion h)
  | .bool _, .str _ => isFalse (by intro h; exact Expr.noConfusion h)
  | .bool _, .null => isFalse (by intro h; exact Expr.noConfusion h)
  | .bool _, .undefined => isFalse (by intro h; exact Expr.noConfusion h)
  | .bool _, .list _ => isFalse (by intro h; exact Expr.noConfusion h)
  | .null, .num _ => isFalse (by intro h; exact Expr.noConfusion h)
  | .null, .str _ => isFalse (by intro h; exact Expr.noConfusion h)
  | .null, .bool _ => isFalse (by intro h; exact Expr.noConfusion h)
  | .null, .undefined => isFalse (by intro h; exact Expr.noConfusion h)
  | .null, .list _ => isFalse (by intro h; exact Expr.noConfusion h)
  | .undefined, .num _ => isFalse (by intro h; exact Expr.noConfusion h)
  | .undefined, .str _ => isFalse (by intro h; exact Expr.noConfusion h)
  | .undefined, .bool _ => isFalse (by intro h; exact Expr.noConfusion h)
  | .undefined, .null => isFalse (by intro h; exact Expr.noConfusion h)
  | .undefined, .list _ => isFalse (by intro h; exact Expr.noConfusion h)
  | .list _, .num _ => isFalse (by intro h; exact Expr.noConfusion h)
  | .list _, .str _ => isFalse (by intro h; exact Expr.noConfusion h)
  | .list _, .bool _ => isFalse (by intro h; exact Expr.noConfusion h)
  | .list _, .null => isFalse (by intro h; exact Expr.noConfusion h)
  | .list _, .undefined => isFalse (by intro h; exact Expr.noConfusion h)
where
  deqList : (es fs : List Expr) → Decidable (es = fs)
  | [], [] => isTrue rfl
  | [], _ :: _ => isFalse (by intro h; exact List.noConfusion h)
  | _ :: _, [] => isFalse (by intro h; exact List.noConfusion h)
  | e :: es, f :: fs =>
    match Expr.deq e f, deqList es fs with
    | isTrue h1, isTrue h2 => isTrue (by rw [h1, h2])
    | isFalse h1, _ => isFalse (fun hh => by cases hh; exact h1 rfl)
    | _, isFalse h2 => isFalse (fun hh => by cases hh; exact h2 rfl)

instance : DecidableEq Expr := Expr.deq

/-- Decidable equality for `Value`, likewise written by hand. -/
def Value.deq : (a b : Value) → Decidable (a = b)
  | .num n, .num m =>
    match decEq n m with
    | isTrue h => isTrue (by rw [h])
    | isFalse h => isFalse (fun hh => by cases hh; exact h rfl)
  | .nan, .nan => isTrue rfl
  | .str s, .str t =>
    match decEq s t with
    | isTrue h => isTrue (by rw [h])
    | isFalse h => isFalse (fun hh => by cases hh; exact h rfl)
  | .bool x, .bool y =>
    match decEq x y with
    | isTrue h => isTrue (by rw [h])
    | isFalse h => isFalse (fun hh => by cases hh; exact h rfl)
  | .null, .null => isTrue rfl
  | .undefined, .undefined => isTrue rfl
  | .builtin s, .builtin t =>
    match decEq s t with
    | isTrue h => isTrue (by rw [h])
    | isFalse h => isFalse (fun hh => by cases hh; exact h rfl)
  | .compound p1 b1 e1, .compound p2 b2 e2 =>
    match decEq p1 p2, decEq b1 b2, decEq e1 e2 with
    | isTrue h1, isTrue h2, isTrue h3 => isTrue (by rw [h1, h2, h3])
    | isFalse h1, _, _ => isFalse (fun hh => by cases hh; exact h1 rfl)
    | _, isFalse h2, _ => isFalse (fun hh => by cases hh; exact h2 rfl)
    | _, _, isFalse h3 => isFalse (fun hh => by cases hh; exact h3 rfl)
  | .arr vs, .arr ws =>
    match deqList vs ws with
    | isTrue h => isTrue (by rw [h])
    | isFalse h => isFalse (fun hh => by cases hh; exact h rfl)
  | .num _, .nan => isFalse (by intro h; exact Value.noConfusion h)
  | .num _, .str _ => isFalse (by intro h; exact Value.noConfusion h)
  | .num _, .bool _ => isFalse (by intro h; exact Value.noConfusion h)
  | .num _, .null => isFalse (by intro h; exact Value.noConfusion h)
  | .num _, .undefined => isFalse (by intro h; exact Value.noConfusion h)
  | .num _, .builtin _ => isFalse (by intro h; exact Value.noConfusion h)
  | .num _, .compound _ _ _ => isFalse (by intro h; exact Value.noConfusion h)
  | .num _, .arr _ => isFalse (by intro h; exact Value.noConfusion h)
  | .nan, .num _ => isFalse (by intro h; exact Value.noConfusion h)
  | .nan, .str _ => isFalse (by intro h; exact Value.noConfusion h)
  | .nan, .bool _ => isFalse (by intro h; exact Value.noConfusion h)
  | .nan, .null => isFalse (by intro h; exact Value.noConfusion h)
  | .nan, .undefined => isFalse (by intro h; exact Value.noConfusion h)
  | .nan, .builtin _ => isFalse (by intro h; exact Value.noConfusion h)
  | .nan, .compound _ _ _ => isFalse (by intro h; exact Value.noConfusion h)
  | .nan, .arr _ => isFalse (by intro h; exact Value.noConfusion h)
  | .str _, .num _ => isFalse (by intro h; exact Value.noConfusion h)
  | .str _, .nan => isFalse (by intro h; exact Value.noConfusion h)
  | .str _, .bool _ => isFalse (by intro h; exact Value.noConfusion h)
  | .str _, .null => isFalse (by intro h; exact Value.noConfusion h)
  | .str _, .undefined => isFalse (by intro h; exact Value.noConfusion h)
  | .str _, .builtin _ => isFalse (by intro h; exact Value.noConfusion h)
  | .str _, .compound _ _ _ => isFalse (by intro h; exact Value.noConfusion h)
  | .str _, .arr _ => isFalse (by intro h; exact Value.noConfusion h)
  | .bool _, .num _ => isFalse (by intro h; exact Value.noConfusion h)
  | .bool _, .nan => isFalse (by intro h; exact Value.noConfusion h)
  | .bool _, .str _ => isFalse (by intro h; exact Value.noConfusion h)
  | .bool _, .null => isFalse (by intro h; exact Value.noConfusion h)
  | .bool _, .undefined => isFalse (by intro h; exact Value.noConfusion h)
  | .bool _, .builtin _ => isFalse (by intro h; exact Value.noConfusion h)
  | .bool _, .compound _ _ _ => isFalse (by intro h; exact Value.noConfusion h)
  | .bool _, .arr _ => isFalse (by intro h; exact Value.noConfusion h)
  | .null, .num _ => isFalse (by intro h; exact Value.noConfusion h)
  | .null, .nan => isFalse (by intro h; exact Value.noConfusion h)
  | .null, .str _ => isFalse (by intro h; exact Value.noConfusion h)
  | .null, .bool _ => isFalse (by intro h; exact Value.noConfusion h)
  | .null, .undefined => isFalse (by intro h; exact Value.noConfusion h)
  | .null, .builtin _ => isFalse (by intro h; exact Value.noConfusion h)
  | .null, .compound _ _ _ => isFalse (by intro h; exact Value.noConfusion h)
  | .null, .arr _ => isFalse (by intro h; exact Value.noConfusion h)
  | .undefined, .num _ => isFalse (by intro h; exact Value.noConfusion h)
  | .undefined, .nan => isFalse (by intro h; exact Value.noConfusion h)
  | .undefined, .str _ => isFalse (by intro h; exact Value.noConfusion h)
  | .undefined, .bool _ => isFalse (by intro h; exact Value.noConfusion h)
  | .undefined, .null => isFalse (by intro h; exact Value.noConfusion h)
  | .undefined, .builtin _ => isFalse (by intro h; exact Value.noConfusion h)
  | .undefined, .compound _ _ _ => isFalse (by intro h; exact Value.noConfusion h)
  | .undefined, .arr _ => isFalse (by intro h; exact Value.noConfusion h)
  | .builtin _, .num _ => isFalse (by intro h; exact Value.noConfusion h)
  | .builtin _, .nan => isFalse (by intro h; exact Value.noConfusion h)
  | .builtin _, .str _ => isFalse (by intro h; exact Value.noConfusion h)
  | .builtin _, .bool _ => isFalse (by intro h; exact Value.noConfusion h)
  | .builtin _, .null => isFalse (by intro h; exact Value.noConfusion h)
  | .builtin _, .undefined => isFalse (by intro h; exact Value.noConfusion h)
  | .builtin _, .compound _ _ _ => isFalse (by intro h; exact Value.noConfusion h)
  | .builtin _, .arr _ => isFalse (by intro h; exact Value.noConfusion h)
  | .compound _ _ _, .num _ => isFalse (by intro h; exact Value.noConfusion h)
  | .compound _ _ _, .nan => isFalse (by intro h; exact Value.noConfusion h)
  | .compound _ _ _, .str _ => isFalse (by intro h; exact Value.noConfusion h)
  | .compound _ _ _, .bool _ => isFalse (by intro h; exact Value.noConfusion h)
  | .compound _ _ _, .null => isFalse (by intro h; exact Value.noConfusion h)
  | .compound _ _ _, .undefined => isFalse (by intro h; exact Value.noConfusion h)
  | .compound _ _ _, .builtin _ => isFalse (by intro h; exact Value.noConfusion h)
  | .compound _ _ _, .arr _ => isFalse (by intro h; exact Value.noConfusion h)
  | .arr _, .num _ => isFalse (by intro h; exact Value.noConfusion h)
  | .arr _, .nan => isFalse (by intro h; exact Value.noConfusion h)
  | .arr _, .str _ => isFalse (by intro h; exact Value.noConfusion h)
  | .arr _, .bool _ => isFalse (by intro h; exact Value.noConfusion h)
  | .arr _, .null => isFalse (by intro h; exact Value.noConfusion h)
  | .arr _, .undefined => isFalse (by intro h; exact Value.noConfusion h)
  | .arr _, .builtin _ => isFalse (by intro h; exact Value.noConfusion h)
  | .arr _, .compound _ _ _ => isFalse (by intro h; exact Value.noConfusion h)
where
  deqList : (vs ws : List Value) → Decidable (vs = ws)
  | [], [] => isTrue rfl
  | [], _ :: _ => isFalse (by intro h; exact List.noConfusion h)
  | _ :: _, [] => isFalse (by intro h; exact List.noConfusion h)
  | v :: vs, w :: ws =>
    match Value.deq v w, deqList vs ws with
    | isTrue h1, isTrue h2 => isTrue (by rw [h1, h2])
    | isFalse h1, _ => isFalse (fun hh => by cases hh; exact h1 rfl)
    | _, isFalse h2 => isFalse (fun hh => by cases hh; exact h2 rfl)

instance : DecidableEq Value := Value.deq

/-- The apostrophe character used by the source to mark quoted-string
literals (`expression[0] == "'"`). -/
def quoteChar : Char := Char.ofNat 39

/-- ASCII whitespace recognised by the host's `ToNumber` trimming.  (The
host also trims some exotic Unicode spaces; the interpreter's token strings
never contain those.) -/
def isWS (c : Char) : Bool :=
  c == ' ' || c == '\t' || c == '\n' || c == '\r'

/-- Trim leading and trailing whitespace from a character list. -/
def trimChars (l : List Char) : List Char :=
  ((l.dropWhile isWS).reverse.dropWhile isWS).reverse

/-- Hexadecimal digit. -/
def isHexDigit (c : Char) : Bool :=
  c.isDigit || ('a' ≤ c && c ≤ 'f') || ('A' ≤ c && c ≤ 'F')

/-- Exponent part of a decimal numeric literal: empty, or `e`/`E` followed
by an optionally signed nonempty digit string. -/
def expPartOk : List Char → Bool
  | [] => true
  | c :: rest =>
    if c == 'e' || c == 'E' then
      match rest with
      | s :: ds =>
        if s == '+' || s == '-' then !ds.isEmpty && ds.all Char.isDigit
        else (s :: ds).all Char.isDigit
      | [] => false
    else false

/-- Unsigned decimal numeral with optional fraction and exponent
(`StrDecimalLiteral` without sign): `123`, `123.`, `123.45`, `.45`, each
with an optional exponent. -/
def decLiteralOk (l : List Char) : Bool :=
  let intPart := l.takeWhile Char.isDigit
  let rest := l.dropWhile Char.isDigit
  match rest with
  | [] => !intPart.isEmpty
  | '.' :: r2 =>
    let frac := r2.takeWhile Char.isDigit
    let rest2 := r2.dropWhile Char.isDigit
    (!intPart.isEmpty || !frac.isEmpty) && expPartOk rest2
  | _ => !intPart.isEmpty && expPartOk rest

/-- Decimal numeral or `Infinity`, used after an optional sign. -/
def decOrInfinity (l : List Char) : Bool :=
  l == "Infinity".data || decLiteralOk l

/-- The host's `ToNumber` on a trimmed nonempty character list: optional
sign with decimal numeral or `Infinity`, or an unsigned radix literal
(`0x` / `0X` / `0b` / `0B` / `0o` / `0O`). -/
def numericBody : List Char → Bool
  | [] => true
  | '0' :: 'x' :: rest => !rest.isEmpty && rest.all isHexDigit
  | '0' :: 'X' :: rest => !rest.isEmpty && rest.all isHexDigit
  | '0' :: 'b' :: rest => !rest.isEmpty && rest.all (fun c => c == '0' || c == '1')
  | '0' :: 'B' :: rest => !rest.isEmpty && rest.all (fun c => c == '0' || c == '1')
  | '0' :: 'o' :: rest => !rest.isEmpty && rest.all (fun c => '0' ≤ c && c ≤ '7')
  | '0' :: 'O' :: rest => !rest.isEmpty && rest.all (fun c => '0' ≤ c && c ≤ '7')
  | '+' :: rest => decOrInfinity rest
  | '-' :: rest => decOrInfinity rest
  | l => decOrInfinity l

/-- Whether the host's `ToNumber(s)` is a number (not NaN); the empty and
all-whitespace strings coerce to `0`. -/
def strIsNumeric (s : String) : Bool :=
  numericBody (trimChars s.data)

/-- Numeric value of a decimal digit list. -/
def digitsVal (ds : List Char) : Int :=
  ds.foldl (fun acc c => acc * 10 + ((c.toNat - '0'.toNat : Nat) : Int)) (0 : Int)

/-- `ToNumber(s)` restricted to the `Int` fragment: empty/whitespace → 0,
optional sign plus decimal digits.  Numeric strings with fraction, exponent,
radix prefix or `Infinity` denote host numbers outside the `Int` fragment
and are not produced or consumed by any program this development evaluates;
they are mapped to `none` (NaN) here, which is only observable through them. -/
def strToIntOpt (s : String) : Option Int :=
  match trimChars s.data with
  | [] => some 0
  | '+' :: ds => if !ds.isEmpty && ds.all Char.isDigit then some (digitsVal ds) else none
  | '-' :: ds => if !ds.isEmpty && ds.all Char.isDigit then some (-(digitsVal ds)) else none
  | ds => if ds.all Char.isDigit then some (digitsVal ds) else none

/-- Decimal rendering of a host (integral) number, as `String(n)` prints it. -/
def intToString (n : Int) : String := toString n

/-- Element rendering used by the host's `Array.prototype.join`: `null` and
`undefined` become the empty string, nested arrays are joined recursively,
other values print as `String(...)`.  The helper `joinList` is
`Array.prototype.join(",")`, the host's default array-to-string conversion. -/
def elemStr : Expr → String
  | .null => ""
  | .undefined => ""
  | .list es => joinList es
  | .num n => intToString n
  | .str s => s
  | .bool b => if b then "true" else "false"
where
  joinList : List Expr → String
  | [] => ""
  | [e] => elemStr e
  | e :: rest => elemStr e ++ "," ++ joinList rest

/-- `Array.prototype.join(",")` over expression arrays. -/
def arrayJoin : List Expr → String := elemStr.joinList

/-- The host's `String(...)` conversion on an expression value (used when an
expression is coerced by the `isVariable` regexp test or as a property key). -/
def jsToString : Expr → String
  | .num n => intToString n
  | .str s => s
  | .bool b => if b then "true" else "false"
  | .null => "null"
  | .undefined => "undefined"
  | .list es => arrayJoin es

/-- Characters admitted by the source's identifier regexp
`/^([a-z-A-Z0-9_$+*\/\-?!=><])+$/` (lesson-7 variant): ASCII letters,
digits, and `_ $ + * / - ? ! = > <`. -/
def identChar (c : Char) : Bool :=
  c.isAlpha || c.isDigit ||
    c == '_' || c == '$' || c == '+' || c == '*' || c == '/' || c == '-' ||
    c == '?' || c == '!' || c == '=' || c == '>' || c == '<'

/-- Whether a string matches the identifier regexp: nonempty and made only
of `identChar`s. -/
def identString (s : String) : Bool :=
  !s.data.isEmpty && s.data.all identChar

/-- Host `isNaN(expression)`: `ToNumber` of the expression (arrays coerce
through their join string) is NaN.  `Expr.num` literals are integral host
numbers, never NaN. -/
def jsIsNaN : Expr → Bool
  | .num _ => false
  | .str s => !strIsNumeric s
  | .bool _ => false
  | .null => false
  | .undefined => true
  | .list es => !strIsNumeric (arrayJoin es)

/-- Truthiness of an expression used as a host condition (`e[3] || false` in
`getIfAlternative`): `0`, the empty string, `false`, `null` and `undefined`
are falsy; arrays (even empty ones) are truthy. -/
def exprTruthy : Expr → Bool
  | .num n => n != 0
  | .str s => !s.isEmpty
  | .bool b => b
  | .null => false
  | .undefined => false
  | .list _ => true

/-- Truthiness of a runtime value used as a host condition (the `if
(evaluate(...))` test in `evalIf`). -/
def jsTruthy : Value → Bool
  | .num n => n != 0
  | .nan => false
  | .str s => !s.isEmpty
  | .bool b => b
  | .null => false
  | .undefined => false
  | .builtin _ => true
  | .compound _ _ _ => true
  | .arr _ => true

/-- Host loose equality `x == tag` between an expression (an array element
retrieved by indexing) and a literal tag string, as `isTaggedList` and
`isCondElseClause` use it: strings compare directly, arrays coerce through
their join string, numbers and booleans compare through `ToNumber(tag)`,
and `null`/`undefined` are never loosely equal to a string. -/
def jsLooseEqStr (x : Expr) (tag : String) : Bool :=
  match x with
  | .str s => s == tag
  | .list es => arrayJoin es == tag
  | .num n => match strToIntOpt tag with
    | some m => n == m
    | none => false
  | .bool b => match strToIntOpt tag with
    | some m => (if b then (1 : Int) else 0) == m
    | none => false
  | .null => false
  | .undefined => false

/-- The host value an expression already is, returned unchanged by the
self-evaluating branch of `evaluate` (`return expression`). -/
def exprToValue : Expr → Value
  | .num n => .num n
  | .str s => .str s
  | .bool b => .bool b
  | .null => .null
  | .undefined => .undefined
  | .list es => .arr (listToValue es)
where
  listToValue : List Expr → List Value
  | [] => []
  | e :: rest => exprToValue e :: listToValue rest

/-- `expression[index]` on host values: arrays index their elements, strings
index their characters (yielding a one-character string), and any
out-of-range or non-indexed access yields `undefined`.  (Indexing `null` or
`undefined` throws in the host; the evaluator only indexes values it has
already classified as arrays or strings, so that case does not arise in the
modelled fragment and is mapped to `undefined` here.) -/
def exprIndex (e : Expr) (i : Nat) : Expr :=
  match e with
  | .list es => (es.getD i .undefined)
  | .str s => match s.data.get? i with
    | some c => .str (String.mk [c])
    | none => .undefined
  | _ => .undefined

/-- Errors the interpreter can signal: the two `ReferenceError` throws of
`lookupVariableValue` / `setVariableValue` (unbound name), the arity throw
of `extendEnvironment`, the misplaced-`else` throw of `expandCondClauses`,
host `TypeError`s from indexing non-indexable values, and fuel exhaustion
(an artifact of the fueled embedding only — the source recurses without
bound). -/
inductive Err where
  | unbound (name : String)
  | arity
  | misplacedElse
  | hostError (msg : String)
  | outOfFuel
  deriving Repr, DecidableEq

/-- Decidable equality for `Except` results. -/
instance {e : Type} {a : Type} [DecidableEq e] [DecidableEq a] : DecidableEq (Except e a)
  | .ok x, .ok y =>
    match decEq x y with
    | isTrue h => isTrue (by rw [h])
    | isFalse h => isFalse (fun hh => by cases hh; exact h rfl)
  | .error x, .error y =>
    match decEq x y with
    | isTrue h => isTrue (by rw [h])
    | isFalse h => isFalse (fun hh => by cases hh; exact h rfl)
  | .ok _, .error _ => isFalse (by intro h; exact Except.noConfusion h)
  | .error _, .ok _ => isFalse (by intro h; exact Except.noConfusion h)

/-- One environment frame: a host object's own properties (an ordered
name-to-value table; property keys are strings) plus its prototype
reference (`none` models a `null` prototype). -/
structure Frame where
  bindings : List (String × Value)
  parent : Option Nat
  deriving Repr, DecidableEq

/-- Interpreter state: the store of environment frames (host objects are
identified by their store index; `Object.create(parent)` appends a fresh
frame) and the output accumulated by the `print` built-in (each call logs
its argument list). -/
structure St where
  store : List Frame
  output : List (List Value)
  deriving Repr, DecidableEq

/-- `hasOwnProperty`: whether the frame's own table has the key. -/
def frameOwns (fr : Frame) (key : String) : Bool :=
  fr.bindings.any (fun p => p.1 == key)

/-- Read an own property. -/
def frameGet (fr : Frame) (key : String) : Option Value :=
  (fr.bindings.find? (fun p => p.1 == key)).map (fun p => p.2)

/-- Write a property on a host object: overwrite in place when the key is
already an own property (property order is preserved), otherwise append. -/
def frameSet (fr : Frame) (key : String) (v : Value) : Frame :=
  if frameOwns fr key then
    { fr with bindings := fr.bindings.map (fun p => if p.1 == key then (key, v) else p) }
  else
    { fr with bindings := fr.bindings ++ [(key, v)] }

/-- Walk the prototype chain from `ref` looking for the first frame whose
own table has `key`; this is both what the `in` operator and the
`do { ... hasOwnProperty ... } while (environment = Object.getPrototypeOf(...))`
loop of `setVariableValue` compute.  `fuel` bounds the walk; every chain in
a store of `n` frames is visited completely with fuel `n` because
`Object.create` only ever links a new frame to an existing one. -/
def protoFindOwner (store : List Frame) : Nat → Nat → String → Option Nat
  | 0, _, _ => none
  | fuel + 1, ref, key =>
    match store.get? ref with
    | none => none
    | some fr =>
      if frameOwns fr key then some ref
      else match fr.parent with
        | none => none
        | some p => protoFindOwner store fuel p key
termination_by structural fuel ref key => fuel

/-- Host property read through the prototype chain (`environment[variable]`):
the value at the nearest frame owning the key. -/
def protoGet (store : List Frame) : Nat → Nat → String → Option Value
  | 0, _, _ => none
  | fuel + 1, ref, key =>
    match store.get? ref with
    | none => none
    | some fr =>
      match frameGet fr key with
      | some v => some v
      | none => match fr.parent with
        | none => none
        | some p => protoGet store fuel p key
termination_by structural fuel ref key => fuel

/-- The store reference of `Object.prototype`.  The lesson-7 global
environment is created as a plain object literal `{}`, so it inherits the
host `Object.prototype` members; that host object is modelled as frame 0. -/
def ObjectPrototypeRef : Nat := 0

/-- The store reference of `TheGlobalEnvironment` (`var TheGlobalEnvironment
= {}` — a fresh object whose prototype is `Object.prototype`). -/
def TheGlobalEnvironment : Nat := 1

/-- Own properties of the host `Object.prototype`, each a native function
except where noted (`constructor` is the `Object` constructor function).
These are exactly the standard named data properties every plain `{}`
object inherits. -/
def objectPrototypeFrame : Frame :=
  { bindings :=
      [ ("constructor", .builtin "Object"),
        ("hasOwnProperty", .builtin "hasOwnProperty"),
        ("isPrototypeOf", .builtin "isPrototypeOf"),
        ("propertyIsEnumerable", .builtin "propertyIsEnumerable"),
        ("toLocaleString", .builtin "toLocaleString"),
        ("toString", .builtin "toString"),
        ("valueOf", .builtin "valueOf") ],
    parent := none }

/-- The global frame of a freshly initialised lesson-7 interpreter: the
`toString` override installed right after the literal, then the built-in
registrations `extendJSObject(TheGlobalEnvironment, {...})` in source
order: `>`, `=`, `null?`, the `null` constant, `+`, `-`, `print`. -/
def theGlobalFrame : Frame :=
  { bindings :=
      [ ("toString", .builtin "globalToString"),
        (">", .builtin ">"),
        ("=", .builtin "="),
        ("null?", .builtin "null?"),
        ("null", .null),
        ("+", .builtin "+"),
        ("-", .builtin "-"),
        ("print", .builtin "print") ],
    parent := some ObjectPrototypeRef }

/-- The state of a freshly initialised interpreter: `Object.prototype` at
frame 0, `TheGlobalEnvironment` at frame 1, nothing printed yet. -/
def initialSt : St :=
  { store := [objectPrototypeFrame, theGlobalFrame], output := [] }

/-- `isSelfEvaluating`: `!isNaN(expression) || (typeof expression ==
"string" && expression[0] == "'")`. -/
def isSelfEvaluating (e : Expr) : Bool :=
  !jsIsNaN e ||
    (match e with
     | .str s => s.data.head? == some quoteChar
     | _ => false)

/-- `isVariable`: the identifier regexp test, which coerces its argument to
a string first (so a one-element array `["f"]` matches as `"f"`). -/
def isVariable (e : Expr) : Bool :=
  identString (jsToString e)

/-- `isTaggedList(tag, expression)`: `expression[0] == tag`, with host
indexing and loose equality.  A string's element 0 is its first character
(never equal to a multi-character tag), a number's or boolean's is
`undefined`. -/
def isTaggedList (tag : String) (e : Expr) : Bool :=
  jsLooseEqStr (exprIndex e 0) tag

def isDefinition (e : Expr) : Bool := isTaggedList "define" e

def isAssignment (e : Expr) : Bool := isTaggedList "set!" e

def isLambda (e : Expr) : Bool := isTaggedList "lambda" e

def isBlock (e : Expr) : Bool := isTaggedList "begin" e

def isIf (e : Expr) : Bool := isTaggedList "if" e

def isCond (e : Expr) : Bool := isTaggedList "cond" e

/-- `isApplication`: `Array.isArray(exp)`. -/
def isApplication (e : Expr) : Bool :=
  match e with
  | .list _ => true
  | _ => false

/-- `getIfPredicate`: `ifExpression[1]`. -/
def getIfPredicate (e : Expr) : Expr := exprIndex e 1

/-- `getIfConsequent`: `ifExpression[2]`. -/
def getIfConsequent (e : Expr) : Expr := exprIndex e 2

/-- `getIfAlternative`: `ifExpression[3] || false` — note the host `||`:
an *absent* alternative (`undefined`) and equally any falsy alternative
expression (the literal `0`, the empty string, `false`, `null`) are
replaced by the literal `false`. -/
def getIfAlternative (e : Expr) : Expr :=
  let a := exprIndex e 3
  if exprTruthy a then a else .bool false

/-- `getCondClauses`: `condExpression.slice(1)`. -/
def getCondClauses (e : Expr) : List Expr :=
  match e with
  | .list es => es.drop 1
  | _ => []

/-- `getCondPredicate`: `condClause[0]`. -/
def getCondPredicate (c : Expr) : Expr := exprIndex c 0

/-- `getCondActions`: `condClause.slice(1)`.  (On a non-array clause the
host would either slice a string or throw; clauses are arrays in every
program this development evaluates, and the theorems below restrict
themselves to array-shaped clauses.) -/
def getCondActions (c : Expr) : List Expr :=
  match c with
  | .list es => es.drop 1
  | _ => []

/-- `isCondElseClause`: `getCondPredicate(condClause) == "else"` (host loose
equality, so the array `["else"]` also qualifies as an else predicate). -/
def isCondElseClause (c : Expr) : Bool :=
  jsLooseEqStr (getCondPredicate c) "else"

/-- `makeBegin(expresisons)`: `["begin", expresisons]`.  Note this places
the whole expression *array* as the single element after the tag — it does
not splice the expressions into the node. -/
def makeBegin (expresisons : List Expr) : Expr :=
  .list [.str "begin", .list expresisons]

/-- `makeIf(predicate, consequent, alternative)`. -/
def makeIf (predicate consequent alternative : Expr) : Expr :=
  .list [.str "if", predicate, consequent, alternative]

/-- `sequenceExpression(expressions)`: `null` for an empty action list, the
lone expression for a singleton, otherwise a `begin` node via `makeBegin`. -/
def sequenceExpression (expressions : List Expr) : Expr :=
  match expressions with
  | [] => .null
  | [e] => e
  | es => makeBegin es

/-- `expandCondClauses`: right-fold expansion of cond clauses into nested
`if`s; the empty clause list gives the literal `false`; an `else` clause
must be last, otherwise a misplaced-`else` error is thrown during the
expansion itself (the host evaluates the recursive call strictly, before
any `makeIf` node is assembled). -/
def expandCondClauses : List Expr → Except Err Expr
  | [] => .ok (.bool false)
  | first :: rest =>
    if isCondElseClause first then
      if rest.length != 0 then .error .misplacedElse
      else .ok (sequenceExpression (getCondActions first))
    else
      match expandCondClauses rest with
      | .error e => .error e
      | .ok alternative =>
        .ok (makeIf (getCondPredicate first)
              (sequenceExpression (getCondActions first))
              alternative)

/-- `condToIf`: expand the clauses of a cond expression. -/
def condToIf (e : Expr) : Except Err Expr :=
  expandCondClauses (getCondClauses e)

/-- `makeFunction(parameters, body, parentEnvironment)`: the tagged array
`["function", parameters, body]` with the environment stored on it (the
`environment` expando property becomes the `env` field of the variant). -/
def makeFunction (parameters : Expr) (body : List Expr) (parentEnvironment : Nat) : Value :=
  .compound parameters body parentEnvironment

/-- `getFunctionBody`: `procedure[2]` of the function array. -/
def getFunctionBody : Value → List Expr
  | .compound _ body _ => body
  | _ => []

/-- `getFunctionParameters`: `procedure[1]` of the function array. -/
def getFunctionParameters : Value → Expr
  | .compound params _ _ => params
  | _ => .undefined

/-- `makeLambda(parameters, body)`: `["lambda", parameters].concat(body)`. -/
def makeLambda (parameters : List Expr) (body : List Expr) : Expr :=
  .list ([.str "lambda", .list parameters] ++ body)

/-- `getLambdaBody`: `lambda.slice(2)`. -/
def getLambdaBody (e : Expr) : List Expr :=
  match e with
  | .list es => es.drop 2
  | _ => []

/-- `getLambdaParameters`: `lambda[1]`. -/
def getLambdaParameters (e : Expr) : Expr := exprIndex e 1

/-- `getBlockActions`: `block.slice(1)`. -/
def getBlockActions (e : Expr) : List Expr :=
  match e with
  | .list es => es.drop 1
  | _ => []

/-- `getDefinitionName`: the bare name for a variable definition, or
`expression[1][0]` for a function definition.  The test is `isVariable`
with its string coercion, so a *zero-parameter* function header `["f"]`
coerces to `"f"`, passes the variable test, and the whole header array is
returned as the name (the host later coerces it back to the string `"f"`
when it is used as a property key). -/
def getDefinitionName (e : Expr) : Expr :=
  if isVariable (exprIndex e 1) then exprIndex e 1
  else exprIndex (exprIndex e 1) 0

/-- `getDefinitionValue`: the value expression for a variable definition,
or `makeLambda(expression[1].slice(1), expression.slice(2))` for a function
definition.  Because the variable test coerces arrays, a zero-parameter
function header takes the *variable* branch and the first body expression
is returned as the definition value, with no lambda ever built. -/
def getDefinitionValue (e : Expr) : Expr :=
  if isVariable (exprIndex e 1) then exprIndex e 2
  else
    makeLambda
      (match exprIndex e 1 with
       | .list ps => ps.drop 1
       | _ => [])
      (match e with
       | .list es => es.drop 2
       | _ => [])

/-- `getAssignmentValue`: `expression[2]`. -/
def getAssignmentValue (e : Expr) : Expr := exprIndex e 2

/-- `getAssignmentName`: `expression[1]`. -/
def getAssignmentName (e : Expr) : Expr := exprIndex e 1

/-- `getOperator`: `expression[0]`. -/
def getOperator (e : Expr) : Expr := exprIndex e 0

/-- `getArguments`: `expression.slice(1)`. -/
def getArguments (e : Expr) : List Expr :=
  match e with
  | .list es => es.drop 1
  | _ => []

/-- The host's rendering of a native function (`String(fn)` on a built-in). -/
def builtinToString (name : String) : String :=
  "function " ++ name ++ "() \x7b [native code] \x7d"

/-- The host's rendering of a compound procedure: the function object *is*
the array `["function", parameters, body]`, so `String(...)` joins those
three elements. -/
def compoundToString (params : Expr) (body : List Expr) : String :=
  "function," ++ elemStr params ++ "," ++ arrayJoin body

/-- Join-element rendering for runtime-value arrays, mirroring `elemStr`. -/
def valueElemStr : Value → String
  | .null => ""
  | .undefined => ""
  | .arr vs => joinListV vs
  | .num n => intToString n
  | .nan => "NaN"
  | .str s => s
  | .bool b => if b then "true" else "false"
  | .builtin name => builtinToString name
  | .compound p b _ => compoundToString p b
where
  joinListV : List Value → String
  | [] => ""
  | [v] => valueElemStr v
  | v :: rest => valueElemStr v ++ "," ++ joinListV rest

/-- `Array.prototype.join(",")` over runtime-value arrays. -/
def valueJoin : List Value → String := valueElemStr.joinListV

/-- Host primitive values, the result of `ToPrimitive` on a runtime value. -/
inductive PrimV where
  | pnum (n : Int)
  | pnan
  | pstr (s : String)
  | pbool (b : Bool)
  | pnull
  | pundefined
  deriving Repr, DecidableEq

/-- `ToPrimitive`: scalars are already primitive; arrays (including the
function-tagged arrays of compound procedures) convert through their join
string; native functions through their source text. -/
def toPrimitive : Value → PrimV
  | .num n => .pnum n
  | .nan => .pnan
  | .str s => .pstr s
  | .bool b => .pbool b
  | .null => .pnull
  | .undefined => .pundefined
  | .builtin name => .pstr (builtinToString name)
  | .compound p b _ => .pstr (compoundToString p b)
  | .arr vs => .pstr (valueJoin vs)

/-- `ToNumber` on a primitive (`none` is NaN). -/
def primToNum : PrimV → Option Int
  | .pnum n => some n
  | .pnan => none
  | .pstr s => strToIntOpt s
  | .pbool b => some (if b then 1 else 0)
  | .pnull => some 0
  | .pundefined => none

/-- `ToString` on a primitive. -/
def primToStr : PrimV → String
  | .pnum n => intToString n
  | .pnan => "NaN"
  | .pstr s => s
  | .pbool b => if b then "true" else "false"
  | .pnull => "null"
  | .pundefined => "undefined"

/-- Host `a + b`: string concatenation when either primitive is a string,
numeric addition otherwise (NaN-propagating). -/
def jsAdd (a b : Value) : Value :=
  let pa := toPrimitive a
  let pb := toPrimitive b
  match pa, pb with
  | .pstr _, _ => .str (primToStr pa ++ primToStr pb)
  | _, .pstr _ => .str (primToStr pa ++ primToStr pb)
  | _, _ =>
    match primToNum pa, primToNum pb with
    | some x, some y => .num (x + y)
    | _, _ => .nan

/-- Host `a - b`: always numeric (NaN-propagating). -/
def jsSub (a b : Value) : Value :=
  match primToNum (toPrimitive a), primToNum (toPrimitive b) with
  | some x, some y => .num (x - y)
  | _, _ => .nan

/-- Host unary minus. -/
def jsNeg (a : Value) : Value :=
  match primToNum (toPrimitive a) with
  | some x => .num (-x)
  | none => .nan

/-- Host `a > b`: lexicographic when both primitives are strings, numeric
otherwise (false when either is NaN). -/
def jsGreaterThan (a b : Value) : Bool :=
  match toPrimitive a, toPrimitive b with
  | .pstr s1, .pstr s2 => decide (s2 < s1)
  | pa, pb =>
    match primToNum pa, primToNum pb with
    | some x, some y => decide (y < x)
    | _, _ => false

/-- Host strict equality `a === b`.  NaN equals nothing.  Function and
array operands compare by object identity in the host; distinct evaluations
yield distinct objects, and object identity is not tracked by this model,
so those compare unequal here (a built-in name, however, always denotes the
one function object registered under it).  No program in this development
compares procedure or array objects. -/
def jsStrictEq (a b : Value) : Bool :=
  match a, b with
  | .num n, .num m => n == m
  | .str s, .str t => s == t
  | .bool x, .bool y => x == y
  | .null, .null => true
  | .undefined, .undefined => true
  | .builtin n1, .builtin n2 => n1 == n2
  | _, _ => false

/-- Loose equality of a runtime value against a tag string (used by the
tag test when `apply` inspects a raw array value). -/
def jsLooseEqStrValue (v : Value) (tag : String) : Bool :=
  match v with
  | .str s => s == tag
  | .arr vs => valueJoin vs == tag
  | .builtin name => builtinToString name == tag
  | .compound p b _ => compoundToString p b == tag
  | .num n => match strToIntOpt tag with
    | some m => n == m
    | none => false
  | .bool b => match strToIntOpt tag with
    | some m => (if b then (1 : Int) else 0) == m
    | none => false
  | .nan => false
  | .null => false
  | .undefined => false

/-- `applyBuiltInFunction(procedure, args)`: invoke the native function
registered under `name`.  `>`/`=`/`null?` take their first two (first)
positional arguments, extra arguments are ignored and missing ones are
`undefined`, exactly as host functions receive them.  `+` and `-` reduce
over the whole argument array (an empty `arguments` makes the host's
`reduce` throw); `-` with exactly one argument is unary negation.  `print`
logs its argument list and returns `console.log`'s result, `undefined`.
Host built-ins reachable only through prototype inheritance
(`hasOwnProperty`, ...) are outside the modelled fragment. -/
def applyBuiltInFunction (name : String) (args : List Value) (st : St) :
    Except Err Value × St :=
  match name with
  | ">" => (.ok (.bool (jsGreaterThan (args.getD 0 .undefined) (args.getD 1 .undefined))), st)
  | "=" => (.ok (.bool (jsStrictEq (args.getD 0 .undefined) (args.getD 1 .undefined))), st)
  | "null?" => (.ok (.bool (jsStrictEq (args.getD 0 .undefined) .null)), st)
  | "+" =>
    match args with
    | [] => (.error (.hostError "reduce of empty array with no initial value"), st)
    | a :: rest => (.ok (rest.foldl jsAdd a), st)
  | "-" =>
    match args with
    | [] => (.error (.hostError "reduce of empty array with no initial value"), st)
    | [a] => (.ok (jsNeg a), st)
    | a :: rest => (.ok (rest.foldl jsSub a), st)
  | "print" => (.ok .undefined, { st with output := st.output ++ [args] })
  | "globalToString" => (.ok (.str "[object TheGlobalEnvironment]"), st)
  | _ => (.error (.hostError ("host built-in not modelled: " ++ name)), st)

/-- `lookupVariableValue(variable, environment)`: the `in`-test followed by
the property read both walk the prototype chain to the nearest frame owning
the (string-coerced) name; a miss throws the `ReferenceError`. -/
def lookupVariableValue (varExpr : Expr) (environment : Nat) (st : St) :
    Except Err Value × St :=
  let key := jsToString varExpr
  match protoGet st.store st.store.length environment key with
  | some v => (.ok v, st)
  | none => (.error (.unbound key), st)

/-- `defineVariable(variable, value, environment)`: unconditionally set the
own property of the current frame; the host assignment expression yields
the assigned value. -/
def defineVariable (varExpr : Expr) (value : Value) (environment : Nat) (st : St) :
    Except Err Value × St :=
  let key := jsToString varExpr
  match st.store.get? environment with
  | some fr =>
    (.ok value, { st with store := st.store.set environment (frameSet fr key value) })
  | none => (.error (.hostError "invalid environment reference"), st)

/-- `setVariableValue(variable, value, environment)`: throw the
`ReferenceError` when the name is owned by no frame of the chain (the `in`
precheck); otherwise the `do/while` `hasOwnProperty` walk stops at the
nearest owning frame — possibly an inherited host frame — and the binding
is overwritten there.  The precheck and the walk traverse the same chain,
so both are `protoFindOwner`. -/
def setVariableValue (varExpr : Expr) (value : Value) (environment : Nat) (st : St) :
    Except Err Value × St :=
  let key := jsToString varExpr
  match protoFindOwner st.store st.store.length environment key with
  | none => (.error (.unbound key), st)
  | some r =>
    match st.store.get? r with
    | some fr => (.ok value, { st with store := st.store.set r (frameSet fr key value) })
    | none => (.error (.hostError "invalid environment reference"), st)

/-- `extendEnvironment(variables, values, parentEnvironment)`: throw the
arity error if the lengths differ; otherwise `Object.create(parent)` (a
fresh frame appended to the store) initialised by the loop
`for (var index = variables.length; index--;)`, i.e. bindings written at
indices n−1 down to 0 (so with a duplicated name the index-0 write lands
last).  Returns the new frame's reference. -/
def extendEnvironment (varList : List Expr) (values : List Value)
    (parentEnvironment : Nat) (st : St) : Except Err Nat × St :=
  if varList.length != values.length then (.error .arity, st)
  else
    let newFrame := ((varList.zip values).reverse).foldl
      (fun fr p => frameSet fr (jsToString p.1) p.2)
      { bindings := [], parent := some parentEnvironment }
    (.ok st.store.length, { st with store := st.store ++ [newFrame] })

mutual

/-- `evaluate(expression, environment)`: the dispatcher, testing the
classifications in source order — self-evaluating, variable, definition,
assignment, lambda, block, if, cond (rewritten by `condToIf` and
re-entered), application; a host function body that matches no branch
returns `undefined`.  The `fuel` argument is an artifact of the embedding:
the source recurses without bound, and every recursive call here strictly
decreases the fuel. -/
def evaluate : Nat → Expr → Nat → St → Except Err Value × St
  | 0, _, _, st => (.error .outOfFuel, st)
  | fuel + 1, expression, environment, st =>
    if isSelfEvaluating expression then (.ok (exprToValue expression), st)
    else if isVariable expression then lookupVariableValue expression environment st
    else if isDefinition expression then evalDefinition fuel expression environment st
    else if isAssignment expression then evalAssignment fuel expression environment st
    else if isLambda expression then
      (.ok (makeFunction (getLambdaParameters expression) (getLambdaBody expression)
              environment), st)
    else if isBlock expression then evalSequence fuel (getBlockActions expression) environment st
    else if isIf expression then evalIf fuel expression environment st
    else if isCond expression then
      match condToIf expression with
      | .error e => (.error e, st)
      | .ok rewritten => evaluate fuel rewritten environment st
    else if isApplication expression then
      match evaluate fuel (getOperator expression) environment st with
      | (.error e, st1) => (.error e, st1)
      | (.ok procedure, st1) =>
        match getArgumentValues fuel (getArguments expression) environment st1 with
        | (.error e, st2) => (.error e, st2)
        | (.ok argumentValues, st2) => apply fuel procedure argumentValues st2
    else (.ok .undefined, st)
termination_by structural fuel => fuel

/-- `evalIf(ifExpression, environment)`: evaluate the predicate; a truthy
result selects the consequent, a falsy one the alternative (`false` when
absent, via `getIfAlternative`). -/
def evalIf : Nat → Expr → Nat → St → Except Err Value × St
  | 0, _, _, st => (.error .outOfFuel, st)
  | fuel + 1, ifExpression, environment, st =>
    match evaluate fuel (getIfPredicate ifExpression) environment st with
    | (.error e, st1) => (.error e, st1)
    | (.ok predicateValue, st1) =>
      if jsTruthy predicateValue then
        evaluate fuel (getIfConsequent ifExpression) environment st1
      else
        evaluate fuel (getIfAlternative ifExpression) environment st1
termination_by structural fuel => fuel

/-- `evalDefinition(expression, environment)`: evaluate the definition
value (a sugared function definition has already been rewritten to a lambda
by `getDefinitionValue`) in the same environment, then install the binding
in the current frame. -/
def evalDefinition : Nat → Expr → Nat → St → Except Err Value × St
  | 0, _, _, st => (.error .outOfFuel, st)
  | fuel + 1, expression, environment, st =>
    match evaluate fuel (getDefinitionValue expression) environment st with
    | (.error e, st1) => (.error e, st1)
    | (.ok v, st1) => defineVariable (getDefinitionName expression) v environment st1
termination_by structural fuel => fuel

/-- `evalAssignment(expression, environment)`: evaluate the new value
first, then `setVariableValue` on the (string-coerced) name. -/
def evalAssignment : Nat → Expr → Nat → St → Except Err Value × St
  | 0, _, _, st => (.error .outOfFuel, st)
  | fuel + 1, expression, environment, st =>
    match evaluate fuel (getAssignmentValue expression) environment st with
    | (.error e, st1) => (.error e, st1)
    | (.ok v, st1) => setVariableValue (getAssignmentName expression) v environment st1
termination_by structural fuel => fuel

/-- `evalSequence(expressions, environment)`: evaluate in order, returning
the last value; with no expressions `returnResult` is never assigned and
`undefined` is returned.  A throw inside `forEach` aborts the iteration and
propagates. -/
def evalSequence : Nat → List Expr → Nat → St → Except Err Value × St
  | 0, _, _, st => (.error .outOfFuel, st)
  | _ + 1, [], _, st => (.ok .undefined, st)
  | fuel + 1, e :: rest, environment, st =>
    match evaluate fuel e environment st with
    | (.error err, st1) => (.error err, st1)
    | (.ok v, st1) =>
      match rest with
      | [] => (.ok v, st1)
      | _ => evalSequence fuel rest environment st1
termination_by structural fuel => fuel

/-- `getArgumentValues(expressions, environment)`: left-to-right `map` of
`evaluate` over the operand expressions. -/
def getArgumentValues : Nat → List Expr → Nat → St → Except Err (List Value) × St
  | 0, _, _, st => (.error .outOfFuel, st)
  | _ + 1, [], _, st => (.ok [], st)
  | fuel + 1, e :: rest, environment, st =>
    match evaluate fuel e environment st with
    | (.error err, st1) => (.error err, st1)
    | (.ok v, st1) =>
      match getArgumentValues fuel rest environment st1 with
      | (.error err, st2) => (.error err, st2)
      | (.ok vs, st2) => (.ok (v :: vs), st2)
termination_by structural fuel => fuel

/-- `apply(procedure, arguments)`: built-ins are invoked natively, function-
tagged procedures go to `applyUserDefinedFunction` — and a value matching
*neither* test falls off the end of the host function, returning
`undefined` with no error.  The tag test indexes the procedure, so `null`
and `undefined` procedures make the host throw a `TypeError`; a raw array
value whose first element is loosely `"function"` would be treated as a
function object and make the host throw while extending its absent
`environment` property (no such array value is constructible by `evaluate`:
a self-evaluating array has a numeric join string, which `"function,..."`
is not). -/
def apply : Nat → Value → List Value → St → Except Err Value × St
  | 0, _, _, st => (.error .outOfFuel, st)
  | fuel + 1, procedure, argumentValues, st =>
    match procedure with
    | .builtin name => applyBuiltInFunction name argumentValues st
    | .compound _ _ _ => applyUserDefinedFunction fuel procedure argumentValues st
    | .null => (.error (.hostError "cannot read properties of null"), st)
    | .undefined => (.error (.hostError "cannot read properties of undefined"), st)
    | .arr (v :: _) =>
      if jsLooseEqStrValue v "function" then
        (.error (.hostError "array value carries no environment to extend"), st)
      else (.ok .undefined, st)
    | _ => (.ok .undefined, st)
termination_by structural fuel => fuel

/-- `applyUserDefinedFunction(procedure, arguments)`: evaluate the body as
a sequence in a fresh frame extending `procedure.environment` — the
environment captured when the function was created, never the caller's. -/
def applyUserDefinedFunction : Nat → Value → List Value → St → Except Err Value × St
  | 0, _, _, st => (.error .outOfFuel, st)
  | fuel + 1, procedure, argumentValues, st =>
    match procedure with
    | .compound _ _ closureRef =>
      match getFunctionParameters procedure with
      | .list parameterList =>
        match extendEnvironment parameterList argumentValues closureRef st with
        | (.error e, st1) => (.error e, st1)
        | (.ok newEnv, st1) => evalSequence fuel (getFunctionBody procedure) newEnv st1
      | _ => (.error (.hostError "parameter object has no usable length"), st)
    | _ => (.error (.hostError "not a function object"), st)
termination_by structural fuel => fuel

end

/-- The list of frame references visited when walking the prototype chain
from `ref` (the frame itself first, then its prototype, ...), used to state
that an operation targets the *nearest* frame of the chain with some
property. -/
def chainRefs (store : List Frame) : Nat → Nat → List Nat
  | 0, _ => []
  | fuel + 1, ref =>
    match store.get? ref with
    | none => []
    | some fr =>
      ref :: (match fr.parent with
              | none => []
              | some p => chainRefs store fuel p)
termination_by structural fuel ref => fuel

/-- Classifier for `apply` operands that match *neither* procedure test and
are indexable without a host throw: numbers, NaN, strings, booleans, and
array values not tagged `"function"`.  (Excluded: built-ins and compounds,
which match a test; `null`/`undefined`, whose tag check itself throws; and
`"function"`-tagged raw arrays, which the host then fails to apply.) -/
def notCallableValue : Value → Bool
  | .num _ => true
  | .nan => true
  | .str _ => true
  | .bool _ => true
  | .arr [] => true
  | .arr (w :: _) => !jsLooseEqStrValue w "function"
  | _ => false

/-- Closure scenario, part 1: `(define (mk c) (lambda (x) (begin (set! c x) c)))`
— a function whose result is a procedure that writes and reads `c`, a
variable local to the `mk` activation. -/
def closureDefineMk : Expr :=
  .list [.str "define", .list [.str "mk", .str "c"],
    .list [.str "lambda", .list [.str "x"],
      .list [.str "begin", .list [.str "set!", .str "c", .str "x"], .str "c"]]]

/-- Closure scenario, part 2: `(define g (mk 5))` — the outer call finishes
here, with its activation frame captured by the returned procedure. -/
def closureDefineG : Expr :=
  .list [.str "define", .str "g", .list [.str "mk", .num 5]]

/-- Closure scenario, part 3: `(g 42)` — the returned procedure writes 42
into the finished `mk` activation's `c` and reads it back. -/
def closureCallG : Expr :=
  .list [.str "g", .num 42]

/-! Helper lemmas: reducing the dispatcher on tagged expression arrays with
arbitrary clause/operand subexpressions. -/

theorem trimChars_cons_head (c : Char) (hws : isWS c = false) (l : List Char) :
    ∃ l2, trimChars (c :: l) = c :: l2 := by
  unfold trimChars
  rw [List.dropWhile_cons, hws]
  simp only [Bool.false_eq_true, if_false, List.reverse_cons]
  rw [List.dropWhile_append]
  by_cases hemp : (List.dropWhile isWS l.reverse).isEmpty = true
  · rw [if_pos hemp]
    rw [List.dropWhile_cons, hws]
    exact ⟨[], rfl⟩
  · rw [if_neg hemp]
    rw [List.reverse_append]
    exact ⟨(List.dropWhile isWS l.reverse).reverse, rfl⟩

theorem strIsNumeric_false_of_data (s : String) (c : Char) (l : List Char)
    (hdata : s.data = c :: l) (hws : isWS c = false)
    (hbody : ∀ l2, numericBody (c :: l2) = false) : strIsNumeric s = false := by
  unfold strIsNumeric
  rw [hdata]
  obtain ⟨l2, hl2⟩ := trimChars_cons_head c hws l
  rw [hl2]
  exact hbody l2

theorem identString_false_of_mem (s : String) (c : Char)
    (hc : identChar c = false) (hmem : c ∈ s.data) : identString s = false := by
  unfold identString
  have hall : s.data.all identChar = false := by
    rw [List.all_eq_false]
    exact ⟨c, hmem, by simp [hc]⟩
  rw [hall, Bool.and_false]

theorem numericBody_head_i (l : List Char) : numericBody ('i' :: l) = false := rfl

theorem numericBody_head_c (l : List Char) : numericBody ('c' :: l) = false := rfl

theorem numericBody_head_s (l : List Char) : numericBody ('s' :: l) = false := rfl

/-- Dispatching an `if`-tagged array (with at least one further element)
reaches the `evalIf` branch: the join string `"if,..."` is not numeric, so
the node is not self-evaluating; it contains a comma, so it is not a
variable; and its tag matches none of the earlier tag tests. -/
theorem evaluate_if_dispatch (fuel : Nat) (x : Expr) (xs : List Expr) (env : Nat) (st : St) :
    evaluate (fuel + 1) (.list (.str "if" :: x :: xs)) env st
      = evalIf fuel (.list (.str "if" :: x :: xs)) env st := by
  have hdata : (arrayJoin (Expr.str "if" :: x :: xs)).data
      = 'i' :: 'f' :: ',' :: (elemStr.joinList (x :: xs)).data := rfl
  have hnum : strIsNumeric (arrayJoin (Expr.str "if" :: x :: xs)) = false :=
    strIsNumeric_false_of_data _ 'i' _ hdata rfl numericBody_head_i
  have hse : isSelfEvaluating (.list (.str "if" :: x :: xs)) = false := by
    simp [isSelfEvaluating, jsIsNaN, hnum]
  have hvar : isVariable (.list (.str "if" :: x :: xs)) = false := by
    apply identString_false_of_mem _ ','
    · rfl
    · show ',' ∈ (arrayJoin (Expr.str "if" :: x :: xs)).data
      rw [hdata]; simp
  simp only [evaluate, hse, hvar, Bool.false_eq_true, if_false]
  rfl

/-- Dispatching a `set!`-tagged array (with at least one further element)
reaches the `evalAssignment` branch. -/
theorem evaluate_set_dispatch (fuel : Nat) (x : Expr) (xs : List Expr) (env : Nat) (st : St) :
    evaluate (fuel + 1) (.list (.str "set!" :: x :: xs)) env st
      = evalAssignment fuel (.list (.str "set!" :: x :: xs)) env st := by
  have hdata : (arrayJoin (Expr.str "set!" :: x :: xs)).data
      = 's' :: 'e' :: 't' :: '!' :: ',' :: (elemStr.joinList (x :: xs)).data := rfl
  have hnum : strIsNumeric (arrayJoin (Expr.str "set!" :: x :: xs)) = false :=
    strIsNumeric_false_of_data _ 's' _ hdata rfl numericBody_head_s
  have hse : isSelfEvaluating (.list (.str "set!" :: x :: xs)) = false := by
    simp [isSelfEvaluating, jsIsNaN, hnum]
  have hvar : isVariable (.list (.str "set!" :: x :: xs)) = false := by
    apply identString_false_of_mem _ ','
    · rfl
    · show ',' ∈ (arrayJoin (Expr.str "set!" :: x :: xs)).data
      rw [hdata]; simp
  simp only [evaluate, hse, hvar, Bool.false_eq_true, if_false]
  rfl

/-- Dispatching a `cond`-tagged array (with at least one clause) reaches
the cond branch: the expansion runs first and its result (or its
misplaced-`else` error) decides the rest. -/
theorem evaluate_cond_dispatch (fuel : Nat) (x : Expr) (xs : List Expr) (env : Nat) (st : St) :
    evaluate (fuel + 1) (.list (.str "cond" :: x :: xs)) env st
      = (match condToIf (.list (.str "cond" :: x :: xs)) with
         | .error e => ((.error e : Except Err Value), st)
         | .ok rewritten => evaluate fuel rewritten env st) := by
  have hdata : (arrayJoin (Expr.str "cond" :: x :: xs)).data
      = 'c' :: 'o' :: 'n' :: 'd' :: ',' :: (elemStr.joinList (x :: xs)).data := rfl
  have hnum : strIsNumeric (arrayJoin (Expr.str "cond" :: x :: xs)) = false :=
    strIsNumeric_false_of_data _ 'c' _ hdata rfl numericBody_head_c
  have hse : isSelfEvaluating (.list (.str "cond" :: x :: xs)) = false := by
    simp [isSelfEvaluating, jsIsNaN, hnum]
  have hvar : isVariable (.list (.str "cond" :: x :: xs)) = false := by
    apply identString_false_of_mem _ ','
    · rfl
    · show ',' ∈ (arrayJoin (Expr.str "cond" :: x :: xs)).data
      rw [hdata]; simp
  simp only [evaluate, hse, hvar, Bool.false_eq_true, if_false]
  rfl

/-! Frame-table lemmas: reading a frame after a property write, and after
the binding loop of `extendEnvironment`. -/

theorem find_map_replace (bs : List (String × Value)) (k : String) (v : Value)
    (h : bs.any (fun p => p.1 == k) = true) :
    (bs.map (fun p => if p.1 == k then (k, v) else p)).find? (fun p => p.1 == k)
      = some (k, v) := by
  induction bs with
  | nil => simp at h
  | cons q bs ih =>
    by_cases hq : (q.1 == k) = true
    · simp [List.find?, hq]
    · have hq' : (q.1 == k) = false := by simpa using hq
      simp only [List.any_cons, Bool.or_eq_true] at h
      rcases h with h | h
      · exact absurd h hq
      · simp only [List.map_cons, hq', Bool.false_eq_true, if_false, List.find?, hq']
        exact ih h

theorem find_append_single (bs : List (String × Value)) (k : String) (v : Value)
    (h : bs.any (fun p => p.1 == k) = false) :
    ((bs ++ [(k, v)]).find? (fun p => p.1 == k)) = some (k, v) := by
  induction bs with
  | nil => simp [List.find?]
  | cons q bs ih =>
    simp only [List.any_cons, Bool.or_eq_false_iff] at h
    simp only [List.cons_append, List.find?, h.1]
    exact ih h.2

theorem frameGet_frameSet_self (fr : Frame) (k : String) (v : Value) :
    frameGet (frameSet fr k v) k = some v := by
  unfold frameGet frameSet frameOwns
  cases hany : fr.bindings.any (fun p => p.1 == k) with
  | true =>
    simp only [hany, if_true]
    rw [find_map_replace fr.bindings k v hany]
    rfl
  | false =>
    simp only [hany, Bool.false_eq_true, if_false]
    rw [find_append_single fr.bindings k v hany]
    rfl

theorem frameGet_frameSet_ne (fr : Frame) (k k2 : String) (v : Value) (h : k2 ≠ k) :
    frameGet (frameSet fr k v) k2 = frameGet fr k2 := by
  have hk2 : (k == k2) = false := by
    simp only [beq_eq_false_iff_ne, ne_eq]
    exact fun hh => h hh.symm
  unfold frameGet frameSet frameOwns
  cases hany : fr.bindings.any (fun p => p.1 == k) with
  | true =>
    simp only [hany, if_true]
    congr 1
    induction fr.bindings with
    | nil => rfl
    | cons q bs ih =>
      by_cases hq : (q.1 == k) = true
      · have hqk : q.1 = k := by simpa using hq
        have hqk2 : (q.1 == k2) = false := by rw [hqk]; exact hk2
        simp only [List.map_cons, hq, if_true, List.find?, hk2, hqk2]
        exact ih
      · have hq' : (q.1 == k) = false := by simpa using hq
        simp only [List.map_cons, hq', Bool.false_eq_true, if_false, List.find?]
        cases hq2 : (q.1 == k2) with
        | true => rfl
        | false => exact ih
  | false =>
    simp only [hany, Bool.false_eq_true, if_false]
    congr 1
    induction fr.bindings with
    | nil => simp [List.find?, hk2]
    | cons q bs ih =>
      simp only [List.cons_append, List.find?]
      cases hq2 : (q.1 == k2) with
      | true => rfl
      | false => exact ih

theorem frameSet_parent (fr : Frame) (k : String) (v : Value) :
    (frameSet fr k v).parent = fr.parent := by
  unfold frameSet
  split <;> rfl

theorem foldl_frameSet_parent (M : List (Expr × Value)) (fr : Frame) :
    (M.foldl (fun fr2 p => frameSet fr2 (jsToString p.1) p.2) fr).parent = fr.parent := by
  induction M generalizing fr with
  | nil => rfl
  | cons q M ih =>
    simp only [List.foldl_cons]
    rw [ih, frameSet_parent]

theorem frameGet_foldl_not_mem (M : List (Expr × Value)) (fr : Frame) (k : String)
    (h : ∀ p ∈ M, jsToString p.1 ≠ k) :
    frameGet (M.foldl (fun fr2 p => frameSet fr2 (jsToString p.1) p.2) fr) k
      = frameGet fr k := by
  induction M generalizing fr with
  | nil => rfl
  | cons q M ih =>
    simp only [List.foldl_cons]
    rw [ih _ (fun p hp => h p (List.mem_cons_of_mem _ hp))]
    exact frameGet_frameSet_ne _ _ _ _ (Ne.symm (h q (List.mem_cons_self _ _)))

theorem frameGet_foldl_nodup (M : List (Expr × Value)) (fr : Frame)
    (hnodup : (M.map (fun p => jsToString p.1)).Nodup) :
    ∀ p ∈ M, frameGet (M.foldl (fun fr2 p2 => frameSet fr2 (jsToString p2.1) p2.2) fr)
      (jsToString p.1) = some p.2 := by
  induction M generalizing fr with
  | nil => intro p hp; cases hp
  | cons q M ih =>
    intro p hp
    simp only [List.map_cons, List.nodup_cons] at hnodup
    rcases List.mem_cons.mp hp with rfl | hp2
    · simp only [List.foldl_cons]
      rw [frameGet_foldl_not_mem M _ _ ?hne]
      case hne =>
        intro p2 hp2 heq
        exact hnodup.1 (by rw [← heq]; exact List.mem_map_of_mem _ hp2)
      exact frameGet_frameSet_self _ _ _
    · exact ih _ hnodup.2 p hp2

/-! Prototype-chain lemmas: the walk of `setVariableValue` stops at the
*nearest* frame of the chain owning the name, and fails only when no frame
of the chain owns it. -/

theorem chainRefs_invalid (store : List Frame) (fuel ref : Nat)
    (hget : store.get? ref = none) : chainRefs store (fuel + 1) ref = [] := by
  simp only [chainRefs, hget]

theorem chainRefs_root (store : List Frame) (fuel ref : Nat) (fr : Frame)
    (hget : store.get? ref = some fr) (hpar : fr.parent = none) :
    chainRefs store (fuel + 1) ref = [ref] := by
  simp only [chainRefs, hget, hpar]

theorem chainRefs_step (store : List Frame) (fuel ref : Nat) (fr : Frame) (p : Nat)
    (hget : store.get? ref = some fr) (hpar : fr.parent = some p) :
    chainRefs store (fuel + 1) ref = ref :: chainRefs store fuel p := by
  simp only [chainRefs, hget, hpar]

theorem protoFindOwner_some_nearest (store : List Frame) (key : String) :
    ∀ (fuel ref r : Nat), protoFindOwner store fuel ref key = some r →
      ∃ pre post, chainRefs store fuel ref = pre ++ r :: post
        ∧ (∀ q ∈ pre, ∀ fr, store.get? q = some fr → frameOwns fr key = false)
        ∧ (∃ fr, store.get? r = some fr ∧ frameOwns fr key = true) := by
  intro fuel
  induction fuel with
  | zero =>
    intro ref r h
    simp [protoFindOwner] at h
  | succ fuel ih =>
    intro ref r h
    unfold protoFindOwner at h
    split at h
    · cases h
    · rename_i fr hget
      split at h
      · rename_i hown
        cases h
        cases hpar : fr.parent with
        | none =>
          refine ⟨[], [], ?_, ?_, ⟨fr, hget, hown⟩⟩
          · rw [chainRefs_root store fuel ref fr hget hpar]
            rfl
          · intro q hq
            cases hq
        | some p =>
          refine ⟨[], chainRefs store fuel p, ?_, ?_, ⟨fr, hget, hown⟩⟩
          · rw [chainRefs_step store fuel ref fr p hget hpar]
            rfl
          · intro q hq
            cases hq
      · rename_i hown
        split at h
        · cases h
        · rename_i p hpar
          obtain ⟨pre, post, hchain, hpre, hr⟩ := ih p r h
          refine ⟨ref :: pre, post, ?_, ?_, hr⟩
          · rw [chainRefs_step store fuel ref fr p hget hpar, hchain]
            rfl
          · intro q hq fr2 hfr2
            rcases List.mem_cons.mp hq with rfl | hq2
            · rw [hfr2] at hget
              cases hget
              simpa using hown
            · exact hpre q hq2 fr2 hfr2

theorem protoFindOwner_none_unowned (store : List Frame) (key : String) :
    ∀ (fuel ref : Nat), protoFindOwner store fuel ref key = none →
      ∀ q ∈ chainRefs store fuel ref, ∀ fr, store.get? q = some fr →
        frameOwns fr key = false := by
  intro fuel
  induction fuel with
  | zero =>
    intro ref h q hq
    simp [chainRefs] at hq
  | succ fuel ih =>
    intro ref h q hq fr2 hfr2
    unfold protoFindOwner at h
    split at h
    · rename_i hget
      rw [chainRefs_invalid store fuel ref hget] at hq
      cases hq
    · rename_i fr hget
      split at h
      · cases h
      · rename_i hown
        split at h
        · rename_i hpar
          rw [chainRefs_root store fuel ref fr hget hpar] at hq
          rcases List.mem_cons.mp hq with rfl | hq2
          · rw [hfr2] at hget
            cases hget
            simpa using hown
          · cases hq2
        · rename_i p hpar
          rw [chainRefs_step store fuel ref fr p hget hpar] at hq
          rcases List.mem_cons.mp hq with rfl | hq2
          · rw [hfr2] at hget
            cases hget
            simpa using hown
          · exact ih p h q hq2 fr2 hfr2

/-- With matching lengths, applying a compound procedure builds exactly one
new frame — the binding loop folded over the reversed parameter/argument
zip — whose parent is the procedure's captured environment, and evaluates
the body there. -/
theorem applyUserDefined_extends (fuel : Nat) (ps body : List Expr) (closureRef : Nat)
    (args : List Value) (st : St) (hlen : ps.length = args.length) :
    applyUserDefinedFunction (fuel + 1) (.compound (.list ps) body closureRef) args st
      = evalSequence fuel body st.store.length
          { st with store := st.store ++
              [((ps.zip args).reverse.foldl
                  (fun fr p => frameSet fr (jsToString p.1) p.2)
                  { bindings := [], parent := some closureRef })] } := by
  simp only [applyUserDefinedFunction, getFunctionParameters, getFunctionBody,
    extendEnvironment, hlen, bne_self_eq_false, Bool.false_eq_true, if_false]

/-- With differing lengths, applying a compound procedure throws the arity
error from `extendEnvironment`, before any body expression is touched (the
state is returned unchanged). -/
theorem applyUserDefined_arity (fuel : Nat) (ps body : List Expr) (closureRef : Nat)
    (args : List Value) (st : St) (hlen : ps.length ≠ args.length) :
    applyUserDefinedFunction (fuel + 1) (.compound (.list ps) body closureRef) args st
      = (.error .arity, st) := by
  have hbne : (ps.length != args.length) = true := by simpa using hlen
  simp only [applyUserDefinedFunction, getFunctionParameters, getFunctionBody,
    extendEnvironment, hbne, if_true]

/-- An `else` clause followed by at least one further clause makes the
expansion throw, wherever it sits in the clause list (an even earlier
`else` is also non-final and throws first, with the same error). -/
theorem expandCondClauses_misplaced (cs1 : List Expr) (ec : Expr) (c2 : Expr) (cs2 : List Expr)
    (helse : isCondElseClause ec = true) :
    expandCondClauses (cs1 ++ ec :: c2 :: cs2) = .error .misplacedElse := by
  induction cs1 with
  | nil =>
    simp only [List.nil_append, expandCondClauses, helse, if_true]
    simp
  | cons h1 t1 ih =>
    simp only [List.cons_append, expandCondClauses]
    by_cases he : isCondElseClause h1 = true
    · rw [if_pos he]
      rw [if_pos ?hlen]
      case hlen => simp
    · rw [if_neg he, List.append_eq, ih]

/-! The claims. -/

/-- Claim C1 (code bug): the cond-to-if expansion is *not* evaluated like
the hand-written nested conditional when a clause has more than one action.
`makeBegin` builds `["begin", [5, 7]]` — the action array nested as a single
element — so evaluating the expanded cond `(cond (1 5 7))` evaluates the
inner array `[5, 7]` as an *application* of `5` to `7` and returns
`undefined`, while the hand-written `(if 1 (begin 5 7) false)` documented in
the source's own header comment returns `7`. -/
theorem cond_multi_action_clause_code_bug :
    condToIf (.list [.str "cond", .list [.num 1, .num 5, .num 7]])
      = .ok (.list [.str "if", .num 1,
          .list [.str "begin", .list [.num 5, .num 7]], .bool false])
    ∧ evaluate 20 (.list [.str "cond", .list [.num 1, .num 5, .num 7]])
        TheGlobalEnvironment initialSt = (.ok .undefined, initialSt)
    ∧ evaluate 20 (.list [.str "if", .num 1, .list [.str "begin", .num 5, .num 7], .bool false])
        TheGlobalEnvironment initialSt = (.ok (.num 7), initialSt) := by
  refine ⟨by decide, by decide, by decide⟩

/-- Claim C2 (confirmed): applying a compound procedure always parents the
fresh argument frame at the procedure's captured closure environment — the
call site's environment is not even passed to the applier — and a procedure
returned out of a finished call can still read *and write* the finished
activation's local: the scenario defines `(mk c)` returning a lambda over
`c`, calls `(mk 5)`, and the returned procedure applied to `42` writes `42`
into the finished `mk` activation's `c` (store frame 2) and returns it. -/
theorem closure_env_parent_confirmed (fuel : Nat) (ps body : List Expr) (closureRef : Nat)
    (args : List Value) (st : St) (hlen : ps.length = args.length) :
    (∃ fr : Frame, fr.parent = some closureRef ∧
        applyUserDefinedFunction (fuel + 1) (.compound (.list ps) body closureRef) args st
          = evalSequence fuel body st.store.length { st with store := st.store ++ [fr] })
    ∧ (let res := evalSequence 30 [closureDefineMk, closureDefineG, closureCallG]
         TheGlobalEnvironment initialSt
       res.1 = .ok (.num 42)
       ∧ (res.2.store.get? 2).map (fun fr => frameGet fr "c") = some (some (.num 42))
       ∧ (res.2.store.get? 2).map (fun fr => fr.parent) = some (some TheGlobalEnvironment)) := by
  constructor
  · refine ⟨(ps.zip args).reverse.foldl
        (fun fr p => frameSet fr (jsToString p.1) p.2)
        { bindings := [], parent := some closureRef }, ?_, ?_⟩
    · rw [foldl_frameSet_parent]
    · exact applyUserDefined_extends fuel ps body closureRef args st hlen
  · refine ⟨by decide, by decide, by decide⟩

/-- Witness for C2 at a concrete call: one parameter, one argument. -/
theorem closure_env_parent_witness :
    ∃ fr : Frame, fr.parent = some 1 ∧
      applyUserDefinedFunction 4 (.compound (.list [.str "x"]) [.str "x"] 1) [.num 9] initialSt
        = evalSequence 3 [.str "x"] initialSt.store.length
            { initialSt with store := initialSt.store ++ [fr] } :=
  (closure_env_parent_confirmed 3 [.str "x"] [.str "x"] 1 [.num 9] initialSt (by decide)).1

/-- Claim C3 counterexample: the predicate value `0` is neither the
explicit `false` sentinel nor the null-equivalent, yet `(if 0 1 2)`
evaluates the *alternative* and returns `2`, not the consequent's `1` —
the host's truthiness, not "anything other than false/null", decides. -/
theorem if_zero_predicate_counterexample :
    evaluate 4 (.num 0) TheGlobalEnvironment initialSt = (.ok (.num 0), initialSt)
    ∧ (Value.num 0 ≠ .bool false)
    ∧ (Value.num 0 ≠ .null)
    ∧ evaluate 5 (.list [.str "if", .num 0, .num 1, .num 2]) TheGlobalEnvironment initialSt
        = (.ok (.num 2), initialSt)
    ∧ evaluate 4 (.num 1) TheGlobalEnvironment initialSt = (.ok (.num 1), initialSt)
    ∧ ((.ok (Value.num 2) : Except Err Value) ≠ .ok (.num 1)) := by
  refine ⟨by decide, by decide, by decide, by decide, by decide, by decide⟩

/-- Claim C3 (amended): evaluating an if expression first evaluates the
predicate; a predicate value that is truthy *by the host's rule* (anything
but `false`, `null`, `undefined`, NaN, `0` and the empty string) selects
the consequent, any falsy one selects the alternative expression chosen by
`getIfAlternative`, and with the alternative absent that expression is the
literal `false`, so the result is the false sentinel. -/
theorem if_truthiness_amended (fuel : Nat) (p c a : Expr) (env : Nat) (st st1 : St)
    (v : Value) (hpred : evaluate (fuel + 1) p env st = (.ok v, st1)) :
    (evaluate (fuel + 3) (.list [.str "if", p, c, a]) env st
      = if jsTruthy v then evaluate (fuel + 1) c env st1
        else evaluate (fuel + 1) (getIfAlternative (.list [.str "if", p, c, a])) env st1)
    ∧ getIfAlternative (.list [.str "if", p, c]) = .bool false
    ∧ (jsTruthy v = false →
        evaluate (fuel + 3) (.list [.str "if", p, c]) env st = (.ok (.bool false), st1)) := by
  refine ⟨?_, rfl, ?_⟩
  · rw [show fuel + 3 = (fuel + 2) + 1 from rfl, evaluate_if_dispatch]
    show evalIf ((fuel + 1) + 1) (.list [.str "if", p, c, a]) env st = _
    unfold evalIf
    rw [show getIfPredicate (.list [.str "if", p, c, a]) = p from rfl, hpred]
    rw [show getIfConsequent (.list [.str "if", p, c, a]) = c from rfl]
  · intro hfalsy
    rw [show fuel + 3 = (fuel + 2) + 1 from rfl, evaluate_if_dispatch]
    show evalIf ((fuel + 1) + 1) (.list [.str "if", p, c]) env st = _
    unfold evalIf
    rw [show getIfPredicate (.list [.str "if", p, c]) = p from rfl, hpred]
    show (if jsTruthy v = true then
            evaluate (fuel + 1) (getIfConsequent (.list [.str "if", p, c])) env st1
          else evaluate (fuel + 1) (getIfAlternative (.list [.str "if", p, c])) env st1)
        = (.ok (.bool false), st1)
    rw [hfalsy]
    simp only [Bool.false_eq_true, if_false]
    rw [show getIfAlternative (.list [.str "if", p, c]) = .bool false from rfl]
    rfl

/-- Witness for C3 at a concrete truthy predicate. -/
theorem if_truthiness_witness :
    evaluate 4 (.list [.str "if", .num 1, .num 10, .num 20]) TheGlobalEnvironment initialSt
      = (.ok (.num 10), initialSt) := by
  have h := (if_truthiness_amended 1 (.num 1) (.num 10) (.num 20) TheGlobalEnvironment
    initialSt initialSt (.num 1) (by decide)).1
  rw [show (4 : Nat) = 1 + 3 from rfl, h]
  decide

/-- Claim C4 (confirmed): a `set!` first computes the new value (a failure
there propagates with the state the value evaluation left); then, when some
frame along the prototype chain owns the (string-coerced) name, the
*nearest* such frame — every chain entry before it owns nothing under that
name — is overwritten in place and every other store entry is untouched;
when no frame of the chain owns the name, the assignment fails with the
unbound-name error and the state is returned exactly as the value
evaluation left it, so no binding is created anywhere. -/
theorem assignment_nearest_frame_confirmed (fuel : Nat) (name valExpr : Expr)
    (env : Nat) (st : St) :
    (∀ er st1, evaluate (fuel + 1) valExpr env st = (.error er, st1) →
      evaluate (fuel + 3) (.list [.str "set!", name, valExpr]) env st = (.error er, st1))
    ∧ (∀ v st1, evaluate (fuel + 1) valExpr env st = (.ok v, st1) →
        (protoFindOwner st1.store st1.store.length env (jsToString name) = none →
          evaluate (fuel + 3) (.list [.str "set!", name, valExpr]) env st
            = (.error (.unbound (jsToString name)), st1)
          ∧ ∀ q ∈ chainRefs st1.store st1.store.length env, ∀ fr,
              st1.store.get? q = some fr → frameOwns fr (jsToString name) = false)
        ∧ (∀ r fr, protoFindOwner st1.store st1.store.length env (jsToString name) = some r →
            st1.store.get? r = some fr →
            frameOwns fr (jsToString name) = true
            ∧ (∃ pre post, chainRefs st1.store st1.store.length env = pre ++ r :: post
                ∧ ∀ q ∈ pre, ∀ fr2, st1.store.get? q = some fr2 →
                    frameOwns fr2 (jsToString name) = false)
            ∧ evaluate (fuel + 3) (.list [.str "set!", name, valExpr]) env st
                = (.ok v, { st1 with
                    store := st1.store.set r (frameSet fr (jsToString name) v) })
            ∧ (∀ j, j ≠ r →
                (st1.store.set r (frameSet fr (jsToString name) v)).get? j
                  = st1.store.get? j))) := by
  have hdisp : evaluate (fuel + 3) (.list [.str "set!", name, valExpr]) env st
      = evalAssignment (fuel + 2) (.list [.str "set!", name, valExpr]) env st :=
    evaluate_set_dispatch (fuel + 2) name [valExpr] env st
  constructor
  · intro er st1 h
    rw [hdisp]
    show (match evaluate (fuel + 1)
            (getAssignmentValue (.list [.str "set!", name, valExpr])) env st with
          | (.error e, st1) => ((.error e : Except Err Value), st1)
          | (.ok v, st1) =>
            setVariableValue (getAssignmentName (.list [.str "set!", name, valExpr])) v env st1)
        = (.error er, st1)
    rw [show getAssignmentValue (.list [.str "set!", name, valExpr]) = valExpr from rfl, h]
  · intro v st1 h
    have hstep : evaluate (fuel + 3) (.list [.str "set!", name, valExpr]) env st
        = setVariableValue name v env st1 := by
      rw [hdisp]
      show (match evaluate (fuel + 1)
              (getAssignmentValue (.list [.str "set!", name, valExpr])) env st with
            | (.error e, st1) => ((.error e : Except Err Value), st1)
            | (.ok v, st1) =>
              setVariableValue (getAssignmentName (.list [.str "set!", name, valExpr])) v env st1)
          = setVariableValue name v env st1
      rw [show getAssignmentValue (.list [.str "set!", name, valExpr]) = valExpr from rfl, h]
      rfl
    constructor
    · intro hnone
      constructor
      · rw [hstep]
        simp only [setVariableValue]
        rw [hnone]
      · exact protoFindOwner_none_unowned st1.store (jsToString name)
          st1.store.length env hnone
    · intro r fr hsome hfr
      obtain ⟨pre, post, hchain, hpre, fr2, hfr2, hown2⟩ :=
        protoFindOwner_some_nearest st1.store (jsToString name) st1.store.length env r hsome
      rw [hfr] at hfr2
      cases hfr2
      refine ⟨hown2, ⟨pre, post, hchain, hpre⟩, ?_, ?_⟩
      · rw [hstep]
        simp only [setVariableValue, hsome, hfr]
      · intro j hj
        simp [List.get?_eq_getElem?, List.getElem?_set_ne (Ne.symm hj)]

/-- Witness for C4: `(set! null 7)` in a fresh interpreter overwrites the
global frame's own `null` binding. -/
theorem assignment_nearest_frame_witness :
    evaluate 4 (.list [.str "set!", .str "null", .num 7]) TheGlobalEnvironment initialSt
      = (.ok (.num 7), { initialSt with
          store := initialSt.store.set 1 (frameSet theGlobalFrame "null" (.num 7)) }) := by
  have h := ((assignment_nearest_frame_confirmed 1 (.str "null") (.num 7)
      TheGlobalEnvironment initialSt).2 (.num 7) initialSt (by decide)).2
      1 theGlobalFrame (by decide) (by decide)
  exact h.2.2.1

/-- Claim C5 counterexample: with the duplicated parameter list `(x x)`
called on `(1 2)`, the constructed frame binds `x` to `1` — the *first*
occurrence's argument, because the binding loop writes index 0 last — so
`parameterNames[1]` is not bound to `argumentValues[1] = 2`, and the body
`x` returns `1`. -/
theorem arity_duplicate_params_counterexample :
    ((extendEnvironment [.str "x", .str "x"] [.num 1, .num 2]
        TheGlobalEnvironment initialSt).2.store.get? 2).map (fun fr => frameGet fr "x")
      = some (some (.num 1))
    ∧ (applyUserDefinedFunction 5 (.compound (.list [.str "x", .str "x"]) [.str "x"]
        TheGlobalEnvironment) [.num 1, .num 2] initialSt).1 = .ok (.num 1)
    ∧ (Value.num 1 ≠ .num 2) := by
  refine ⟨by decide, by decide, by decide⟩

/-- Claim C5 (amended): calling a compound procedure with an argument count
different from its parameter count always fails with the arity error before
any body expression is evaluated (the state is untouched); with an equal
count exactly one new frame is built and no arity error is raised, and —
provided the parameter names are pairwise distinct — that frame binds
`parameterNames[i]` to `argumentValues[i]` for every index `i` (with a
duplicated name, the first occurrence's argument wins). -/
theorem arity_check_amended (fuel : Nat) (ps body : List Expr) (closureRef : Nat)
    (args : List Value) (st : St) :
    (ps.length ≠ args.length →
      applyUserDefinedFunction (fuel + 1) (.compound (.list ps) body closureRef) args st
        = (.error .arity, st))
    ∧ (ps.length = args.length →
        ∃ fr : Frame,
          applyUserDefinedFunction (fuel + 1) (.compound (.list ps) body closureRef) args st
            = evalSequence fuel body st.store.length { st with store := st.store ++ [fr] }
          ∧ fr.parent = some closureRef
          ∧ ((ps.map jsToString).Nodup →
              ∀ i, ∀ hi : i < ps.length, ∀ hj : i < args.length,
                frameGet fr (jsToString ps[i]) = some args[i])) := by
  constructor
  · intro hlen
    exact applyUserDefined_arity fuel ps body closureRef args st hlen
  · intro hlen
    refine ⟨(ps.zip args).reverse.foldl
        (fun fr p => frameSet fr (jsToString p.1) p.2)
        { bindings := [], parent := some closureRef }, ?_, ?_, ?_⟩
    · exact applyUserDefined_extends fuel ps body closureRef args st hlen
    · rw [foldl_frameSet_parent]
    · intro hnodup i hi hj
      have hmemzip : (ps[i], args[i]) ∈ ps.zip args := by
        have hlt : i < (ps.zip args).length := by
          rw [List.length_zip]
          omega
        have hzip := @List.getElem_zip _ _ ps args i hlt
        rw [← hzip]
        exact List.getElem_mem hlt
      have hmem : (ps[i], args[i]) ∈ (ps.zip args).reverse := List.mem_reverse.mpr hmemzip
      have hnodup2 : ((ps.zip args).reverse.map (fun p => jsToString p.1)).Nodup := by
        rw [List.map_reverse, List.nodup_reverse]
        have hfst : (ps.zip args).map (fun p => jsToString p.1) = ps.map jsToString := by
          have h1 : (ps.zip args).map (fun p => jsToString p.1)
              = ((ps.zip args).map Prod.fst).map jsToString := by
            rw [List.map_map]
            rfl
          rw [h1, List.map_fst_zip ps args (le_of_eq hlen)]
        rw [hfst]
        exact hnodup
      exact frameGet_foldl_nodup _ _ hnodup2 (ps[i], args[i]) hmem

/-- Witness for C5: both branches at concrete calls — `(λ (x) x)` applied
to two arguments fails with the arity error, and applied to one argument
builds a frame binding `x` to it. -/
theorem arity_check_witness :
    applyUserDefinedFunction 3 (.compound (.list [.str "x"]) [.str "x"] 1)
        [.num 8, .num 9] initialSt = (.error .arity, initialSt)
    ∧ ∃ fr : Frame,
        applyUserDefinedFunction 3 (.compound (.list [.str "x"]) [.str "x"] 1)
            [.num 8] initialSt
          = evalSequence 2 [.str "x"] initialSt.store.length
              { initialSt with store := initialSt.store ++ [fr] }
        ∧ fr.parent = some 1
        ∧ frameGet fr "x" = some (.num 8) := by
  constructor
  · exact (arity_check_amended 2 [.str "x"] [.str "x"] 1 [.num 8, .num 9] initialSt).1
      (by decide)
  · obtain ⟨fr, heq, hpar, hbind⟩ :=
      (arity_check_amended 2 [.str "x"] [.str "x"] 1 [.num 8] initialSt).2 rfl
    exact ⟨fr, heq, hpar, hbind (by decide) 0 (by decide) (by decide)⟩

/-- Claim C6 counterexample: applying the number `5` — neither a built-in
nor a compound procedure — returns `undefined` with no error of any kind;
no NotCallable failure exists in the applier. -/
theorem apply_non_callable_counterexample :
    apply 1 (.num 5) [] initialSt = (.ok .undefined, initialSt) := by decide

/-- Claim C6 (amended): a procedure value matching neither test simply
falls off the end of `apply`, which returns `undefined` with the state
untouched (for `null`/`undefined` operands the tag test itself raises a
host type error instead; no NotCallable error is ever raised). -/
theorem apply_non_callable_amended (fuel : Nat) (v : Value) (args : List Value) (st : St)
    (h : notCallableValue v = true) :
    apply (fuel + 1) v args st = (.ok .undefined, st) := by
  cases v with
  | num n => rfl
  | nan => rfl
  | str s => rfl
  | bool b => rfl
  | null => simp [notCallableValue] at h
  | undefined => simp [notCallableValue] at h
  | builtin name => simp [notCallableValue] at h
  | compound p b e => simp [notCallableValue] at h
  | arr elems =>
    cases elems with
    | nil => rfl
    | cons w rest =>
      have hw : jsLooseEqStrValue w "function" = false := by
        simpa [notCallableValue] using h
      simp only [apply, hw, Bool.false_eq_true, if_false]

/-- Witness for C6 at a concrete non-callable operand. -/
theorem apply_non_callable_witness :
    apply 3 (.str "oops") [.num 1] initialSt = (.ok .undefined, initialSt) :=
  apply_non_callable_amended 2 (.str "oops") [.num 1] initialSt (by decide)

/-- Claim C7 (confirmed): a cond form whose clause list contains an `else`
clause that is not last fails with the misplaced-`else` error, raised by
the expansion itself: `condToIf` already returns the error, and evaluating
the cond returns it with the state exactly as it was — no clause predicate
or action has been evaluated.  (Clauses are required to be arrays, as the
cond grammar produces; on other shapes the host's clause accessors would
throw their own type errors before the expansion completes.) -/
theorem misplaced_else_eager_confirmed (fuel : Nat) (env : Nat) (st : St)
    (cs1 : List Expr) (ec c2 : Expr) (cs2 : List Expr)
    (helse : isCondElseClause ec = true)
    (_hshape : ∀ cl ∈ cs1 ++ ec :: c2 :: cs2, ∃ es, cl = Expr.list es) :
    condToIf (.list (.str "cond" :: (cs1 ++ ec :: c2 :: cs2))) = .error .misplacedElse
    ∧ evaluate (fuel + 1) (.list (.str "cond" :: (cs1 ++ ec :: c2 :: cs2))) env st
        = (.error .misplacedElse, st) := by
  have hexp : condToIf (.list (.str "cond" :: (cs1 ++ ec :: c2 :: cs2)))
      = .error .misplacedElse := by
    show expandCondClauses (getCondClauses (.list (.str "cond" :: (cs1 ++ ec :: c2 :: cs2))))
      = .error .misplacedElse
    rw [show getCondClauses (.list (.str "cond" :: (cs1 ++ ec :: c2 :: cs2)))
        = cs1 ++ ec :: c2 :: cs2 from rfl]
    exact expandCondClauses_misplaced cs1 ec c2 cs2 helse
  refine ⟨hexp, ?_⟩
  cases cs1 with
  | nil =>
    simp only [List.nil_append] at hexp ⊢
    rw [evaluate_cond_dispatch fuel ec (c2 :: cs2) env st, hexp]
  | cons h1 t1 =>
    simp only [List.cons_append] at hexp ⊢
    rw [evaluate_cond_dispatch fuel h1 (t1 ++ ec :: c2 :: cs2) env st, hexp]

/-- Witness for C7: `(cond (else 1) (1 2))` fails eagerly. -/
theorem misplaced_else_eager_witness :
    evaluate 3 (.list [.str "cond", .list [.str "else", .num 1], .list [.num 1, .num 2]])
        TheGlobalEnvironment initialSt
      = (.error .misplacedElse, initialSt) := by
  have h := (misplaced_else_eager_confirmed 2 TheGlobalEnvironment initialSt
    [] (.list [.str "else", .num 1]) (.list [.num 1, .num 2]) [] (by decide) ?shape).2
  · exact h
  case shape =>
    intro cl hcl
    simp only [List.nil_append, List.mem_cons, List.not_mem_nil, or_false] at hcl
    rcases hcl with rfl | rfl
    · exact ⟨_, rfl⟩
    · exact ⟨_, rfl⟩

/-- Claim C8 (code bug): the definition `(define (f) 42)` — a sugared
function form with zero parameters — is misclassified as a plain variable
definition, because the one-element header array `["f"]` coerces to the
string `"f"`, which passes the identifier test.  No lambda is ever built:
the definition value is the bare `42`, and evaluating the definition binds
`f` to the number `42` in the global frame instead of a compound
procedure. -/
theorem zero_param_define_code_bug :
    isVariable (.list [.str "f"]) = true
    ∧ getDefinitionName (.list [.str "define", .list [.str "f"], .num 42]) = .list [.str "f"]
    ∧ getDefinitionValue (.list [.str "define", .list [.str "f"], .num 42]) = .num 42
    ∧ (let res := evaluate 5 (.list [.str "define", .list [.str "f"], .num 42])
         TheGlobalEnvironment initialSt
       res.1 = .ok (.num 42)
       ∧ protoGet res.2.store res.2.store.length TheGlobalEnvironment "f"
           = some (.num 42)) := by
  refine ⟨by decide, by decide, by decide, by decide, by decide⟩

/-- Claim C9 counterexample: the digit-only name `"5"` matches the
identifier grammar, yet after `(define 5 42)` binds it, evaluating the
one-element sequence `(5)` does not return the bound value: the sequence
coerces to a *numeric* string, is classified self-evaluating, and is
returned as the raw array itself. -/
theorem singleton_numeric_name_counterexample :
    identString "5" = true
    ∧ (let stX := (evaluate 5 (.list [.str "define", .str "5", .num 42])
         TheGlobalEnvironment initialSt).2
       protoGet stX.store stX.store.length TheGlobalEnvironment "5" = some (.num 42)
       ∧ evaluate 5 (.list [.str "5"]) TheGlobalEnvironment stX
           = (.ok (.arr [.str "5"]), stX)
       ∧ (Value.arr [.str "5"] ≠ .num 42)) := by
  refine ⟨by decide, by decide, by decide, by decide⟩

/-- Claim C9 (amended): a zero-operand application written as the
one-element sequence `(f)`, where `f` matches the identifier grammar *and
does not coerce to a host number* (digit-only names like `5` and names like
`Infinity` self-evaluate instead), is classified as a variable — the
variable test precedes the application test and accepts the sequence via
string coercion — so the value bound to `f` is returned unchanged and
uninvoked, with the state untouched. -/
theorem singleton_variable_lookup_amended (fuel : Nat) (name : String) (env : Nat)
    (st : St) (v : Value)
    (hident : identString name = true) (hnum : strIsNumeric name = false)
    (hbound : protoGet st.store st.store.length env name = some v) :
    evaluate (fuel + 1) (.list [.str name]) env st = (.ok v, st) := by
  have hje : jsIsNaN (.list [.str name]) = true := by
    show (!strIsNumeric (arrayJoin [.str name])) = true
    rw [show arrayJoin [.str name] = name from rfl, hnum]
    rfl
  have hse : isSelfEvaluating (.list [.str name]) = false := by
    unfold isSelfEvaluating
    rw [hje]
    rfl
  have hvar : isVariable (.list [.str name]) = true := by
    show identString (jsToString (.list [.str name])) = true
    rw [show jsToString (.list [.str name]) = name from rfl]
    exact hident
  simp only [evaluate, hse, hvar, Bool.false_eq_true, if_false, if_true]
  show lookupVariableValue (.list [.str name]) env st = (.ok v, st)
  simp only [lookupVariableValue]
  rw [show jsToString (.list [.str name]) = name from rfl, hbound]

/-- Witness for C9: after binding `g` to a compound procedure, evaluating
`(g)` yields the procedure value itself, not the result of calling it. -/
theorem singleton_variable_lookup_witness :
    evaluate 3 (.list [.str "g"]) TheGlobalEnvironment
        (evaluate 10 (.list [.str "define", .str "g",
           .list [.str "lambda", .list [.str "x"], .str "x"]])
           TheGlobalEnvironment initialSt).2
      = (.ok (.compound (.list [.str "x"]) [.str "x"] TheGlobalEnvironment),
         (evaluate 10 (.list [.str "define", .str "g",
            .list [.str "lambda", .list [.str "x"], .str "x"]])
            TheGlobalEnvironment initialSt).2) :=
  singleton_variable_lookup_amended 2 "g" TheGlobalEnvironment _ _
    (by decide) (by decide) (by decide)

/-- Claim C10 (confirmed): in a freshly initialised interpreter the
identifier names `constructor` and `valueOf` are owned by no program frame
— the global frame's own table has neither, and neither was registered as
a built-in — yet variable lookup succeeds with the inherited host members
of `Object.prototype`, and `set!` succeeds on them too, because the global
frame's prototype is the host object prototype. -/
theorem prototype_inherited_names_confirmed :
    frameOwns theGlobalFrame "constructor" = false
    ∧ frameOwns objectPrototypeFrame "constructor" = true
    ∧ identString "constructor" = true
    ∧ lookupVariableValue (.str "constructor") TheGlobalEnvironment initialSt
        = (.ok (.builtin "Object"), initialSt)
    ∧ evaluate 2 (.str "constructor") TheGlobalEnvironment initialSt
        = (.ok (.builtin "Object"), initialSt)
    ∧ (setVariableValue (.str "constructor") (.num 1) TheGlobalEnvironment initialSt).1
        = .ok (.num 1)
    ∧ frameOwns theGlobalFrame "valueOf" = false
    ∧ identString "valueOf" = true
    ∧ lookupVariableValue (.str "valueOf") TheGlobalEnvironment initialSt
        = (.ok (.builtin "valueOf"), initialSt)
    ∧ (setVariableValue (.str "valueOf") (.num 2) TheGlobalEnvironment initialSt).1
        = .ok (.num 2) := by
  refine ⟨by decide, by decide, by decide, by decide, by decide, by decide, by decide,
    by decide, by decide, by decide⟩
